import Mathlib

/-!
Shallow embedding of the post-processing pipeline of a browser
YOLO11n-seg application (source files: the segmentation utilities module
and `main.ts`).

Modelling conventions:
* JavaScript numbers are embedded as `ℚ` wherever the verified claims
  only concern exact real arithmetic on finite values; a second, refined
  model `JsNum` (rationals extended with `NaN` and signed infinity)
  embeds the IEEE special values where a claim hinges on them
  (division by zero, `NaN` comparisons, `Array.prototype.indexOf` on
  `NaN`).  `-0` is conflated with `0`; no verified claim distinguishes
  them.
* The source field `class` of `Detection` is named `cls` here
  (`class` is a Lean keyword); a `maskCoeffs` value of `undefined` is
  conflated with `[]`, which the source treats identically
  (`!det.maskCoeffs || det.maskCoeffs.length === 0`).
* `tf.sigmoid` is an external numeric kernel; it is abstracted as a
  function parameter `σ : ℚ → ℚ` applied element-wise, since exact IEEE
  sigmoid values are not rational.  All mask-decoder claims hold for
  every `σ`.
-/


/-- `BoundingBox` from the types module: top-left corner plus extents,
in original-image pixel space. -/
structure BoundingBox where
  x : ℚ
  y : ℚ
  width : ℚ
  height : ℚ
deriving DecidableEq, Repr

/-- `Detection` from the types module.  The source field `class` is
renamed `cls` (Lean keyword). -/
structure Detection where
  box : BoundingBox
  score : ℚ
  cls : Int
  maskCoeffs : List ℚ := []
  mask : Option (List (List ℚ)) := none
deriving DecidableEq, Repr

/-- Intersection area of two axis-aligned boxes, the `intersectionArea`
computation of `calculateIoU` (utilities module, lines 168-175). -/
def interArea (box1 box2 : BoundingBox) : ℚ :=
  let x1 := max box1.x box2.x
  let y1 := max box1.y box2.y
  let x2 := min (box1.x + box1.width) (box2.x + box2.width)
  let y2 := min (box1.y + box1.height) (box2.y + box2.height)
  max 0 (x2 - x1) * max 0 (y2 - y1)

/-- Union area of two axis-aligned boxes (`calculateIoU`, lines 177-179). -/
def unionArea (box1 box2 : BoundingBox) : ℚ :=
  box1.width * box1.height + box2.width * box2.height - interArea box1 box2

/-- `calculateIoU` (utilities module, lines 167-182), over exact
rationals.  Lean's `ℚ` division yields `0` on a zero denominator; in
JavaScript `0/0` is `NaN` — that divergence is captured by the refined
model `calculateIoUJs` below and only matters for the zero-union case. -/
def calculateIoU (box1 box2 : BoundingBox) : ℚ :=
  interArea box1 box2 / unionArea box1 box2

/-- Stable descending insertion: the element being inserted comes before
every element of equal score that was later in the original list, which
is exactly the behaviour of the (stable) `Array.prototype.sort` with
comparator `(a, b) => b.score - a.score`. -/
def insertDesc (d : Detection) : List Detection → List Detection
  | [] => [d]
  | e :: tl => if e.score ≤ d.score then d :: e :: tl else e :: insertDesc d tl

/-- `[...detections].sort((a, b) => b.score - a.score)` from `applyNMS`
(line 189), embedded as a stable insertion sort. -/
def sortByScoreDesc : List Detection → List Detection
  | [] => []
  | d :: tl => insertDesc d (sortByScoreDesc tl)

/-- The greedy suppression loop of `applyNMS` (lines 193-207).  The
source walks the sorted array keeping a `suppressed` index set; marking
a later index suppressed and thereafter skipping it is modelled by
filtering the tail: an element `e` survives detection `d` exactly when
`calculateIoU d.box e.box ≤ iouThreshold` (the source suppresses on
`iou > iouThreshold`). -/
def nmsLoop (iouThreshold : ℚ) : List Detection → List Detection
  | [] => []
  | d :: rest =>
      d :: nmsLoop iouThreshold
        (rest.filter fun e => decide (calculateIoU d.box e.box ≤ iouThreshold))
termination_by l => l.length
decreasing_by
  simp only [List.length_cons]
  exact Nat.lt_succ_of_le (List.length_filter_le _ _)

/-- `applyNMS` (utilities module, lines 185-211).  The early return on
an empty input is subsumed by `nmsLoop [] = []`. -/
def applyNMS (detections : List Detection) (iouThreshold : ℚ) : List Detection :=
  nmsLoop iouThreshold (sortByScoreDesc detections)

/-- Hard-coded single-class assumption of `processSegmentation`
(line 65): `const numClasses = 1`. -/
def numClasses : Nat := 1

/-- `det.slice(4, 4 + numClasses)` from `processSegmentation` (line 75). -/
def classScoresOf (det : List ℚ) : List ℚ :=
  (det.drop 4).take numClasses

/-- `Math.max(...classScores)` from `processSegmentation` (line 76), over
exact rationals.  `Math.max` of an empty spread is `-Infinity`, embedded
as `none`: such a row always fails the `maxScore < threshold` test for a
finite threshold and is rejected, which `decodeRow` reproduces. -/
def maxScoreOf (det : List ℚ) : Option ℚ :=
  match classScoresOf det with
  | [] => none
  | c :: cs => some (cs.foldl max c)

/-- `Array.prototype.indexOf` (strict equality, first hit, `-1` when the
value does not occur), used at `processSegmentation` line 77. -/
def jsIndexOfQAux (v : ℚ) : List ℚ → Int → Int
  | [], _ => -1
  | x :: tl, i => if x = v then i else jsIndexOfQAux v tl (i + 1)

/-- Index of the first occurrence of `v`, JavaScript-style. -/
def jsIndexOfQ (xs : List ℚ) (v : ℚ) : Int :=
  jsIndexOfQAux v xs 0

/-- One iteration of the per-anchor loop of `processSegmentation`
(lines 67-101): score the row, reject it when `maxScore < threshold`
(`continue`), otherwise convert the center-form box to corner form and
apply the inverse letterbox transform.  Out-of-range reads use default
`0`; they never occur on a row a claim quantifies over, since an emitted
row has a class score and hence at least 5 entries. -/
def decodeRow (threshold scale padL padT : ℚ) (det : List ℚ) : Option Detection :=
  let xCenter := det.getD 0 0
  let yCenter := det.getD 1 0
  let w := det.getD 2 0
  let h := det.getD 3 0
  match maxScoreOf det with
  | none => none
  | some maxScore =>
    if maxScore < threshold then none
    else
      let x1 := xCenter - w / 2
      let y1 := yCenter - h / 2
      let x2 := xCenter + w / 2
      let y2 := yCenter + h / 2
      some { box := { x := (x1 - padL) / scale
                      y := (y1 - padT) / scale
                      width := (x2 - x1) / scale
                      height := (y2 - y1) / scale }
             score := maxScore
             cls := jsIndexOfQ (classScoresOf det) maxScore
             maskCoeffs := det.drop (4 + numClasses)
             mask := none }

/-- The whole anchor loop of `processSegmentation` (lines 67-101): each
row either contributes one `Detection` or is skipped. -/
def decodeRows (threshold scale padL padT : ℚ) (rows : List (List ℚ)) : List Detection :=
  rows.filterMap (decodeRow threshold scale padL padT)

/-- `processSegmentation` (lines 42-115) without the mask stage: decode
all anchor rows, then NMS at the hard-coded IoU threshold `0.45`
(line 107).  Mask decoding is the separate `decodeMasks` below. -/
def processSegmentation (threshold scale padL padT : ℚ)
    (rows : List (List ℚ)) : List Detection :=
  applyNMS (decodeRows threshold scale padL padT rows) (45 / 100)

/-- The forward letterbox map of `drawSegmentationMask` (lines 318-319):
`x640 = imgX * scale + padL` (same for `y` with `padT`). -/
def letterboxFwd (scale pad v : ℚ) : ℚ :=
  v * scale + pad

/-- The palette lookup index `det.class % colors.length` of
`drawDetections` (line 133).  The JavaScript `%` on integers truncates
toward zero, keeping the dividend's sign: `Int.tmod`. -/
def colorIndex (cls : Int) (colorCount : Nat) : Int :=
  Int.tmod cls colorCount

/-- Spatial/channel shape of a rank-3 tensor stored channel-major as
nested lists: `(dim0, dim1, dim2)`. -/
def shape3 (t : List (List (List ℚ))) : Nat × Nat × Nat :=
  (t.length, (t.head?.map List.length).getD 0,
   ((t.head?.bind List.head?).map List.length).getD 0)

/-- `protosData.transpose([2, 0, 1])` from `decodeMasks` (line 234):
`result[c][h][w] = input[h][w][c]`. -/
def transpose201 (t : List (List (List ℚ))) : List (List (List ℚ)) :=
  (List.range (shape3 t).2.2).map fun c =>
    t.map fun plane => plane.map fun row => row.getD c 0

/-- The layout normalization at the top of `decodeMasks` (lines 229-238):
after squeezing the batch axis, transpose channels to the front when the
last axis equals 32 or is smaller than the first. -/
def normalizeProtos (t : List (List (List ℚ))) : List (List (List ℚ)) :=
  if (shape3 t).2.2 = 32 ∨ (shape3 t).2.2 < t.length then transpose201 t else t

/-- Scale every cell of a 2D grid by `c`. -/
def scaleGrid (c : ℚ) (g : List (List ℚ)) : List (List ℚ) :=
  g.map fun row => row.map fun v => c * v

/-- Cellwise sum of two 2D grids. -/
def addGrid (g1 g2 : List (List ℚ)) : List (List ℚ) :=
  List.zipWith (List.zipWith (· + ·)) g1 g2

/-- A zero grid with the dimensions of `g`. -/
def gridZeros (g : List (List ℚ)) : List (List ℚ) :=
  g.map fun row => row.map fun _ => 0

/-- `tf.einsum('c,chw->hw', coeffs, protosData)` from `decodeMasks`
(line 249): the channel contraction.  `tf.einsum` validates that the
`c` axis of both operands agrees and throws on a mismatch, embedded as
`none`.  The zero-channel branch is unreachable from `decodeOneMask`,
which skips detections without coefficients. -/
def einsumCHW (cs : List ℚ) (protos : List (List (List ℚ))) : Option (List (List ℚ)) :=
  if cs.length = protos.length then
    match protos with
    | [] => none
    | g :: _ => some ((List.zipWith scaleGrid cs protos).foldl addGrid (gridZeros g))
  else none

/-- The body of the per-detection loop of `decodeMasks` (lines 240-267):
skip a detection without coefficients; otherwise contract the first 32
coefficients (`det.maskCoeffs.slice(0, 32)`) against the prototypes and
apply the activation `σ` (the `tf.sigmoid` collaborator) cellwise.  The
`try`/`catch` around the tensor work absorbs any failure, leaving the
detection unchanged. -/
def decodeOneMask (σ : ℚ → ℚ) (protos : List (List (List ℚ))) (det : Detection) : Detection :=
  if det.maskCoeffs.length = 0 then det
  else
    match einsumCHW (det.maskCoeffs.take 32) protos with
    | some grid => { det with mask := some (grid.map fun row => row.map σ) }
    | none => det

/-- The per-detection loop of `decodeMasks`, one detection at a time. -/
def decodeMasksGo (σ : ℚ → ℚ) (protos : List (List (List ℚ))) :
    List Detection → List Detection
  | [] => []
  | det :: rest => decodeOneMask σ protos det :: decodeMasksGo σ protos rest

/-- `decodeMasks` (utilities module, lines 215-269): normalize the
prototype layout once, then populate each detection's mask in turn.
The source mutates the `detections` array in place; the embedding
returns the updated list. -/
def decodeMasks (σ : ℚ → ℚ) (maskProtos : List (List (List ℚ)))
    (dets : List Detection) : List Detection :=
  decodeMasksGo σ (normalizeProtos maskProtos) dets

/-- IEEE-754 double values as far as the verified claims need them:
exact rationals plus `NaN` and the two infinities.  `-0` is conflated
with `0` (no claim distinguishes them). -/
inductive JsNum where
  | nan : JsNum
  | inf : Bool → JsNum
  | num : ℚ → JsNum
deriving DecidableEq, Repr

/-- IEEE addition on the embedded values. -/
def jsAdd : JsNum → JsNum → JsNum
  | JsNum.nan, _ => JsNum.nan
  | _, JsNum.nan => JsNum.nan
  | JsNum.inf p, JsNum.inf q => if p = q then JsNum.inf p else JsNum.nan
  | JsNum.inf p, JsNum.num _ => JsNum.inf p
  | JsNum.num _, JsNum.inf p => JsNum.inf p
  | JsNum.num a, JsNum.num b => JsNum.num (a + b)

/-- IEEE negation. -/
def jsNeg : JsNum → JsNum
  | JsNum.nan => JsNum.nan
  | JsNum.inf p => JsNum.inf (!p)
  | JsNum.num a => JsNum.num (-a)

/-- IEEE subtraction: `a - b = a + (-b)` exactly. -/
def jsSub (a b : JsNum) : JsNum :=
  jsAdd a (jsNeg b)

/-- IEEE multiplication (`Infinity * 0` is `NaN`). -/
def jsMul : JsNum → JsNum → JsNum
  | JsNum.nan, _ => JsNum.nan
  | _, JsNum.nan => JsNum.nan
  | JsNum.inf p, JsNum.inf q => JsNum.inf (p = q)
  | JsNum.inf p, JsNum.num a =>
      if a = 0 then JsNum.nan else JsNum.inf (p = decide (0 < a))
  | JsNum.num a, JsNum.inf p =>
      if a = 0 then JsNum.nan else JsNum.inf (p = decide (0 < a))
  | JsNum.num a, JsNum.num b => JsNum.num (a * b)

/-- IEEE division: `0/0` is `NaN`, `x/0` with `x ≠ 0` is signed
infinity, a finite value over an infinity is `0`. -/
def jsDiv : JsNum → JsNum → JsNum
  | JsNum.nan, _ => JsNum.nan
  | _, JsNum.nan => JsNum.nan
  | JsNum.inf _, JsNum.inf _ => JsNum.nan
  | JsNum.inf p, JsNum.num b => JsNum.inf (p = decide (0 ≤ b))
  | JsNum.num _, JsNum.inf _ => JsNum.num 0
  | JsNum.num a, JsNum.num b =>
      if b = 0 then (if a = 0 then JsNum.nan else JsNum.inf (decide (0 < a)))
      else JsNum.num (a / b)

/-- `Math.max` of two values: `NaN` if either argument is `NaN`. -/
def jsMax2 : JsNum → JsNum → JsNum
  | JsNum.nan, _ => JsNum.nan
  | _, JsNum.nan => JsNum.nan
  | JsNum.inf true, _ => JsNum.inf true
  | _, JsNum.inf true => JsNum.inf true
  | JsNum.inf false, b => b
  | a, JsNum.inf false => a
  | JsNum.num a, JsNum.num b => JsNum.num (max a b)

/-- `Math.min` of two values: `NaN` if either argument is `NaN`. -/
def jsMin2 : JsNum → JsNum → JsNum
  | JsNum.nan, _ => JsNum.nan
  | _, JsNum.nan => JsNum.nan
  | JsNum.inf false, _ => JsNum.inf false
  | _, JsNum.inf false => JsNum.inf false
  | JsNum.inf true, b => b
  | a, JsNum.inf true => a
  | JsNum.num a, JsNum.num b => JsNum.num (min a b)

/-- `Math.max(...xs)`: fold from `-Infinity`, the value of `Math.max()`
on an empty spread. -/
def jsMaxList (xs : List JsNum) : JsNum :=
  xs.foldl jsMax2 (JsNum.inf false)

/-- The `<` comparison: any comparison with `NaN` is `false`;
`-Infinity` is below everything but itself, `+Infinity` above
everything but itself. -/
def jsLt (a b : JsNum) : Bool :=
  match a with
  | JsNum.nan => false
  | JsNum.inf pa =>
    match b with
    | JsNum.nan => false
    | JsNum.inf pb => !pa && pb
    | JsNum.num _ => !pa
  | JsNum.num qa =>
    match b with
    | JsNum.nan => false
    | JsNum.inf pb => pb
    | JsNum.num qb => decide (qa < qb)

/-- The `>` comparison; on IEEE values `a > b` coincides with `b < a`. -/
def jsGt (a b : JsNum) : Bool :=
  jsLt b a

/-- Strict equality `===`: `NaN` is not equal to anything, including
itself; otherwise structural. -/
def jsEq : JsNum → JsNum → Bool
  | JsNum.nan, _ => false
  | _, JsNum.nan => false
  | a, b => decide (a = b)

/-- `Array.prototype.indexOf` over IEEE values: first index whose entry
is `===` to the probe, `-1` when none is (in particular always `-1` when
the probe is `NaN`). -/
def jsIndexOfAux (v : JsNum) : List JsNum → Int → Int
  | [], _ => -1
  | x :: tl, i => if jsEq x v then i else jsIndexOfAux v tl (i + 1)

/-- JavaScript `indexOf`, starting at index 0. -/
def jsIndexOf (xs : List JsNum) (v : JsNum) : Int :=
  jsIndexOfAux v xs 0

/-- `BoundingBox` over the refined number model. -/
structure JsBox where
  x : JsNum
  y : JsNum
  width : JsNum
  height : JsNum
deriving DecidableEq, Repr

/-- A finite box injected into the refined model. -/
def toJsBox (b : BoundingBox) : JsBox :=
  ⟨JsNum.num b.x, JsNum.num b.y, JsNum.num b.width, JsNum.num b.height⟩

/-- `calculateIoU` (lines 167-182) over the refined number model,
operation for operation. -/
def calculateIoUJs (box1 box2 : JsBox) : JsNum :=
  let x1 := jsMax2 box1.x box2.x
  let y1 := jsMax2 box1.y box2.y
  let x2 := jsMin2 (jsAdd box1.x box1.width) (jsAdd box2.x box2.width)
  let y2 := jsMin2 (jsAdd box1.y box1.height) (jsAdd box2.y box2.height)
  let intersectionWidth := jsMax2 (JsNum.num 0) (jsSub x2 x1)
  let intersectionHeight := jsMax2 (JsNum.num 0) (jsSub y2 y1)
  let intersectionArea := jsMul intersectionWidth intersectionHeight
  let box1Area := jsMul box1.width box1.height
  let box2Area := jsMul box2.width box2.height
  let unionAr := jsSub (jsAdd box1Area box2Area) intersectionArea
  jsDiv intersectionArea unionAr

/-- `Detection` over the refined number model (box, score and raw
coefficients as IEEE values; `class` renamed `cls`). -/
structure JsDetection where
  box : JsBox
  score : JsNum
  cls : Int
  maskCoeffs : List JsNum := []
deriving DecidableEq, Repr

/-- The per-anchor loop body of `processSegmentation` (lines 67-101)
over the refined number model.  Reads past the end of a row give
`undefined`, which behaves as `NaN` in the arithmetic and in
`Math.max`, hence the default `JsNum.nan`. -/
def decodeRowJs (threshold scale padL padT : JsNum) (det : List JsNum) :
    Option JsDetection :=
  let xCenter := det.getD 0 JsNum.nan
  let yCenter := det.getD 1 JsNum.nan
  let w := det.getD 2 JsNum.nan
  let h := det.getD 3 JsNum.nan
  let classScores := (det.drop 4).take numClasses
  let maxScore := jsMaxList classScores
  let classId := jsIndexOf classScores maxScore
  if jsLt maxScore threshold then none
  else
    let x1 := jsSub xCenter (jsDiv w (JsNum.num 2))
    let y1 := jsSub yCenter (jsDiv h (JsNum.num 2))
    let x2 := jsAdd xCenter (jsDiv w (JsNum.num 2))
    let y2 := jsAdd yCenter (jsDiv h (JsNum.num 2))
    some { box := { x := jsDiv (jsSub x1 padL) scale
                    y := jsDiv (jsSub y1 padT) scale
                    width := jsDiv (jsSub x2 x1) scale
                    height := jsDiv (jsSub y2 y1) scale }
           score := maxScore
           cls := classId
           maskCoeffs := det.drop (4 + numClasses) }

/-- The UI state touched by `detectAndSegment` (`main.ts`): the
module-level reentrancy guard plus the DOM flags it flips. -/
structure UiState where
  isProcessing : Bool
  processingVisible : Bool
  inferenceTimeVisible : Bool
  uploadDisabled : Bool
  alertShown : Bool
deriving DecidableEq, Repr

/-- The environment of one `detectAndSegment` run: whether the model
loaded, whether `canvas.getContext('2d')` yields a context, and whether
anything in the `try` block (preprocess, inference, postprocess, draw)
throws. -/
structure RunEnv where
  modelLoaded : Bool
  ctxAvailable : Bool
  pipelineThrows : Bool
deriving DecidableEq, Repr

/-- `detectAndSegment` (`main.ts`, lines 58-135) as a state transition.
Source order: the `!model || isProcessing` guard (line 59); setting
`isProcessing`, showing the spinner, hiding the timing panel and
disabling upload (lines 61-64); the `const ctx = ...; if (!ctx) return;`
early return (lines 66-67), which happens before the `try`; then the
`try` block (timing panel shown on success), the `catch` (alert), and
the `finally` that resets the guard, hides the spinner and re-enables
upload (lines 130-134). -/
def detectAndSegment (env : RunEnv) (s : UiState) : UiState :=
  if !env.modelLoaded || s.isProcessing then s
  else
    let s1 : UiState :=
      { s with isProcessing := true, processingVisible := true,
               inferenceTimeVisible := false, uploadDisabled := true }
    if !env.ctxAvailable then s1
    else
      let s2 : UiState :=
        if env.pipelineThrows then { s1 with alertShown := true }
        else { s1 with inferenceTimeVisible := true }
      { s2 with isProcessing := false, processingVisible := false,
                uploadDisabled := false }

/-- Demonstration input: two overlapping detections with distinct scores. -/
def demoDetA : Detection := { box := ⟨0, 0, 10, 10⟩, score := 9/10, cls := 0 }

/-- Demonstration input: the lower-scoring overlapping detection. -/
def demoDetB : Detection := { box := ⟨1, 1, 10, 10⟩, score := 8/10, cls := 0 }

/-- Element-wise application of the activation over a 2D grid (the
`tf.sigmoid` stage of `decodeMasks`, with the activation abstracted). -/
def applyGrid (σ : ℚ → ℚ) (grid : List (List ℚ)) : List (List ℚ) :=
  grid.map fun row => row.map σ

/-- A realistic prototype tensor shape for the counterexample: 32
channels of 1×33 grids (the last axis differs from 32 and is not
smaller than the channel count, so the layout check leaves it alone). -/
def protos32 : List (List (List ℚ)) := List.replicate 32 [List.replicate 33 0]

/-- A detection carrying fewer than 32 mask coefficients. -/
def shortCoeffDet : Detection :=
  { box := ⟨0, 0, 1, 1⟩, score := 9/10, cls := 0, maskCoeffs := [1] }

/-- Small 32-channel prototypes with 1×1 grids of ones, given to
`decodeOneMask` directly (post-normalization stage). -/
def protosSmall : List (List (List ℚ)) := List.replicate 32 [[1]]

/-- A detection carrying exactly 32 mask coefficients, all one. -/
def fullCoeffDet : Detection :=
  { box := ⟨0, 0, 1, 1⟩, score := 9/10, cls := 0, maskCoeffs := List.replicate 32 1 }

/-- Tiny prototype tensor for the C8 witness: one channel, 1×2 grid,
left untouched by the layout normalization. -/
def protoTiny : List (List (List ℚ)) := [[[1, 2]]]

/-- A detection whose single coefficient matches the channel count. -/
def goodDet1 : Detection :=
  { box := ⟨0, 0, 1, 1⟩, score := 9/10, cls := 0, maskCoeffs := [3] }

/-- A detection whose coefficient count mismatches the channel count, so
its contraction fails. -/
def badDet : Detection :=
  { box := ⟨0, 0, 1, 1⟩, score := 8/10, cls := 0, maskCoeffs := [1, 2] }

/-- A second well-formed detection, after the failing one. -/
def goodDet2 : Detection :=
  { box := ⟨0, 0, 1, 1⟩, score := 7/10, cls := 0, maskCoeffs := [5] }

theorem mem_insertDesc {d a : Detection} {l : List Detection} :
    a ∈ insertDesc d l ↔ a = d ∨ a ∈ l := by
  induction l with
  | nil => simp [insertDesc]
  | cons e tl ih =>
    by_cases h : e.score ≤ d.score
    · simp [insertDesc, h, ih]
    · simp [insertDesc, h, ih]
      tauto

theorem mem_sortByScoreDesc {a : Detection} {l : List Detection} :
    a ∈ sortByScoreDesc l ↔ a ∈ l := by
  induction l with
  | nil => simp [sortByScoreDesc]
  | cons d tl ih => simp [sortByScoreDesc, mem_insertDesc, ih]

theorem pairwise_insertDesc {d : Detection} {l : List Detection}
    (hl : l.Pairwise fun a b => b.score ≤ a.score) :
    (insertDesc d l).Pairwise fun a b => b.score ≤ a.score := by
  induction l with
  | nil => simp [insertDesc]
  | cons e tl ih =>
    rw [List.pairwise_cons] at hl
    obtain ⟨he, htl⟩ := hl
    by_cases h : e.score ≤ d.score
    · rw [insertDesc, if_pos h]
      refine List.Pairwise.cons ?_ (List.Pairwise.cons he htl)
      intro x hx
      rcases List.mem_cons.mp hx with rfl | hx
      · exact h
      · exact le_trans (he x hx) h
    · rw [insertDesc, if_neg h]
      refine List.Pairwise.cons ?_ (ih htl)
      intro x hx
      rcases mem_insertDesc.mp hx with rfl | hx
      · exact le_of_lt (lt_of_not_le h)
      · exact he x hx

theorem pairwise_sortByScoreDesc (l : List Detection) :
    (sortByScoreDesc l).Pairwise fun a b => b.score ≤ a.score := by
  induction l with
  | nil => simp [sortByScoreDesc]
  | cons d tl ih => exact pairwise_insertDesc ih

theorem nmsLoop_subset (iouThreshold : ℚ) (l : List Detection) :
    ∀ x ∈ nmsLoop iouThreshold l, x ∈ l := by
  induction l using nmsLoop.induct iouThreshold with
  | case1 => simp [nmsLoop]
  | case2 d rest ih =>
    intro x hx
    rw [nmsLoop] at hx
    rcases List.mem_cons.mp hx with rfl | hx
    · exact List.mem_cons_self _ _
    · exact List.mem_cons_of_mem _ (List.mem_of_mem_filter (ih x hx))

theorem nmsLoop_pairwise_of (r : Detection → Detection → Prop) (iouThreshold : ℚ)
    (l : List Detection) (hl : l.Pairwise r) :
    (nmsLoop iouThreshold l).Pairwise r := by
  induction l using nmsLoop.induct iouThreshold with
  | case1 => simp [nmsLoop]
  | case2 d rest ih =>
    rw [List.pairwise_cons] at hl
    obtain ⟨hd, hrest⟩ := hl
    rw [nmsLoop]
    refine List.Pairwise.cons ?_ (ih (hrest.sublist (List.filter_sublist _)))
    intro x hx
    exact hd x (List.mem_of_mem_filter (nmsLoop_subset _ _ x hx))

theorem nmsLoop_pairwise_iou (iouThreshold : ℚ) (l : List Detection) :
    (nmsLoop iouThreshold l).Pairwise
      fun a b => calculateIoU a.box b.box ≤ iouThreshold := by
  induction l using nmsLoop.induct iouThreshold with
  | case1 => simp [nmsLoop]
  | case2 d rest ih =>
    rw [nmsLoop]
    refine List.Pairwise.cons ?_ ih
    intro x hx
    have hx' := nmsLoop_subset _ _ x hx
    have := List.of_mem_filter hx'
    exact of_decide_eq_true this

/-- C1: for every input list of detections and every IoU threshold, the
output of `applyNMS` is a subset of the input detections, is sorted by
descending score, and contains no two detections whose pairwise IoU
exceeds the threshold. -/
theorem applyNMS_subset_sorted_nonoverlapping (dets : List Detection) (iouThreshold : ℚ) :
    applyNMS dets iouThreshold ⊆ dets ∧
    (applyNMS dets iouThreshold).Pairwise (fun a b => b.score ≤ a.score) ∧
    (applyNMS dets iouThreshold).Pairwise
      (fun a b => calculateIoU a.box b.box ≤ iouThreshold) := by
  refine ⟨?_, ?_, ?_⟩
  · intro x hx
    exact mem_sortByScoreDesc.mp (nmsLoop_subset _ _ x hx)
  · exact nmsLoop_pairwise_of _ _ _ (pairwise_sortByScoreDesc dets)
  · exact nmsLoop_pairwise_iou _ _

/-- C1 witness: the property instantiated on a concrete two-detection
input at the pipeline's IoU threshold. -/
theorem applyNMS_subset_sorted_nonoverlapping_witness :
    applyNMS [demoDetA, demoDetB] (45/100) ⊆ [demoDetA, demoDetB] ∧
    (applyNMS [demoDetA, demoDetB] (45/100)).Pairwise (fun a b => b.score ≤ a.score) ∧
    (applyNMS [demoDetA, demoDetB] (45/100)).Pairwise
      (fun a b => calculateIoU a.box b.box ≤ 45/100) :=
  applyNMS_subset_sorted_nonoverlapping [demoDetA, demoDetB] (45/100)

theorem jsLt_nan_right (t : JsNum) : jsLt t JsNum.nan = false := by
  cases t with
  | nan => rfl
  | inf p => cases p <;> rfl
  | num q => rfl

theorem jsMax2_num (a b : ℚ) : jsMax2 (JsNum.num a) (JsNum.num b) = JsNum.num (max a b) := rfl

theorem jsMin2_num (a b : ℚ) : jsMin2 (JsNum.num a) (JsNum.num b) = JsNum.num (min a b) := rfl

theorem jsAdd_num (a b : ℚ) : jsAdd (JsNum.num a) (JsNum.num b) = JsNum.num (a + b) := rfl

theorem jsSub_num (a b : ℚ) : jsSub (JsNum.num a) (JsNum.num b) = JsNum.num (a - b) := by
  rw [jsSub, jsNeg, jsAdd_num, sub_eq_add_neg]

theorem jsMul_num (a b : ℚ) : jsMul (JsNum.num a) (JsNum.num b) = JsNum.num (a * b) := rfl

theorem jsDiv_num (a : ℚ) {b : ℚ} (hb : b ≠ 0) :
    jsDiv (JsNum.num a) (JsNum.num b) = JsNum.num (a / b) := by
  rw [jsDiv, if_neg hb]

/-- C2 counterexample: on two zero-area boxes the union area is zero and
`calculateIoU` returns `0/0`, which in JavaScript is `NaN`, not `0`. -/
theorem calculateIoUJs_zero_union_not_zero :
    calculateIoUJs (toJsBox ⟨0, 0, 0, 0⟩) (toJsBox ⟨0, 0, 0, 0⟩) = JsNum.nan ∧
    JsNum.nan ≠ JsNum.num 0 := by
  constructor
  · simp only [calculateIoUJs, toJsBox, jsMax2_num, jsMin2_num, jsAdd_num,
      jsSub_num, jsMul_num]
    norm_num
    rw [jsDiv, if_pos rfl, if_pos rfl]
  · simp

/-- C2 (amended): `calculateIoU` returns intersection area divided by
union area whenever the union area is nonzero; when both boxes have zero
area the union is zero and the result is `NaN` — no exception is thrown
(the function is total), but the value is `NaN` rather than `0`.  Since
every IEEE comparison with `NaN` is false, such a `NaN` IoU never
suppresses a detection in NMS, so downstream behaviour matches what a
`0` result would give. -/
theorem calculateIoUJs_spec :
    (∀ b1 b2 : BoundingBox, unionArea b1 b2 ≠ 0 →
        calculateIoUJs (toJsBox b1) (toJsBox b2) = JsNum.num (calculateIoU b1 b2)) ∧
    (∀ b1 b2 : BoundingBox, b1.width = 0 → b1.height = 0 → b2.width = 0 → b2.height = 0 →
        calculateIoUJs (toJsBox b1) (toJsBox b2) = JsNum.nan ∧
        ∀ t : JsNum, jsGt (calculateIoUJs (toJsBox b1) (toJsBox b2)) t = false) := by
  constructor
  · intro b1 b2 hu
    have key : calculateIoUJs (toJsBox b1) (toJsBox b2)
        = jsDiv (JsNum.num (interArea b1 b2)) (JsNum.num (unionArea b1 b2)) := by
      simp only [calculateIoUJs, toJsBox, jsMax2_num, jsMin2_num, jsAdd_num,
        jsSub_num, jsMul_num, interArea, unionArea]
    rw [key, jsDiv_num _ hu, calculateIoU]
  · intro b1 b2 hw1 hh1 hw2 hh2
    have hmax0 : ∀ a b : ℚ, max 0 (min a b - max a b) = 0 := fun a b =>
      max_eq_left (sub_nonpos.mpr min_le_max)
    have hnan : calculateIoUJs (toJsBox b1) (toJsBox b2) = JsNum.nan := by
      simp only [calculateIoUJs, toJsBox, jsMax2_num, jsMin2_num, jsAdd_num,
        jsSub_num, jsMul_num, hw1, hh1, hw2, hh2, add_zero, hmax0,
        mul_zero, zero_mul, zero_add, sub_zero]
      rw [jsDiv, if_pos rfl, if_pos rfl]
    exact ⟨hnan, fun t => by rw [jsGt, hnan, jsLt_nan_right]⟩

/-- C2 witness: the refinement instantiated on a concrete non-degenerate
box pair, and the `NaN` result on a concrete zero-area pair. -/
theorem calculateIoUJs_spec_witness :
    calculateIoUJs (toJsBox ⟨0, 0, 10, 10⟩) (toJsBox ⟨0, 0, 10, 10⟩)
      = JsNum.num (calculateIoU ⟨0, 0, 10, 10⟩ ⟨0, 0, 10, 10⟩) ∧
    calculateIoUJs (toJsBox ⟨3, 4, 0, 0⟩) (toJsBox ⟨5, 6, 0, 0⟩) = JsNum.nan :=
  ⟨calculateIoUJs_spec.1 ⟨0, 0, 10, 10⟩ ⟨0, 0, 10, 10⟩
      (by norm_num [unionArea, interArea]),
   (calculateIoUJs_spec.2 ⟨3, 4, 0, 0⟩ ⟨5, 6, 0, 0⟩ rfl rfl rfl rfl).1⟩

/-- C3 (code-bug evidence): when `canvas.getContext('2d')` yields no
context, `detectAndSegment` returns after having set `isProcessing` and
disabled the upload control but before entering the `try`/`finally`, so
the guard stays set and the upload control stays disabled; on the paths
that do enter the `try` (success and failure alike) the `finally` resets
both. -/
theorem detectAndSegment_guard_cleanup :
    ((detectAndSegment ⟨true, false, false⟩
        ⟨false, false, false, false, false⟩).isProcessing = true ∧
     (detectAndSegment ⟨true, false, false⟩
        ⟨false, false, false, false, false⟩).uploadDisabled = true) ∧
    ((detectAndSegment ⟨true, true, false⟩
        ⟨false, false, false, false, false⟩).isProcessing = false ∧
     (detectAndSegment ⟨true, true, false⟩
        ⟨false, false, false, false, false⟩).uploadDisabled = false) ∧
    ((detectAndSegment ⟨true, true, true⟩
        ⟨false, false, false, false, false⟩).isProcessing = false ∧
     (detectAndSegment ⟨true, true, true⟩
        ⟨false, false, false, false, false⟩).uploadDisabled = false) := by
  decide

/-- C4 counterexample: a detection with a single mask coefficient is not
padded to 32 coefficients; the channel contraction fails on the length
mismatch, the failure is caught, and the detection comes out of the mask
decoder with no mask at all — the claimed leniency (pad and still
produce a mask) does not happen. -/
theorem decodeMasks_short_coeffs_no_mask :
    (decodeMasks (fun q => q) protos32 [shortCoeffDet]).map Detection.mask = [none] := by
  have hnorm : normalizeProtos protos32 = protos32 := by
    rw [normalizeProtos, if_neg]
    simp [shape3, protos32]
  have he : einsumCHW (shortCoeffDet.maskCoeffs.take 32) protos32 = none := by
    rw [einsumCHW.eq_def, if_neg]
    simp [shortCoeffDet, protos32]
  rw [decodeMasks, hnorm]
  rw [show decodeMasksGo (fun q => q) protos32 [shortCoeffDet]
      = [decodeOneMask (fun q => q) protos32 shortCoeffDet] from rfl]
  rw [decodeOneMask, if_neg (by simp [shortCoeffDet]), he]
  simp [shortCoeffDet]

/-- C4 (amended): the mask decoder uses exactly the first 32 mask
coefficients of a detection.  When at least 32 are present, extra
coefficients are silently truncated (`slice(0, 32)`) and a mask is
produced from the first 32; when fewer than 32 are present no padding
happens — the channel contraction against 32-channel prototypes fails,
the `try`/`catch` absorbs the failure, and the detection is returned
unchanged, without a mask. -/
theorem decodeOneMask_trunc_spec (σ : ℚ → ℚ) (p : List (List (List ℚ)))
    (det : Detection) (hp : p.length = 32) :
    (32 ≤ det.maskCoeffs.length →
      decodeOneMask σ p det
        = { det with mask := Option.map (applyGrid σ) (einsumCHW (det.maskCoeffs.take 32) p) } ∧
      (einsumCHW (det.maskCoeffs.take 32) p).isSome = true) ∧
    (det.maskCoeffs.length < 32 → decodeOneMask σ p det = det) := by
  constructor
  · intro h32
    have hlen : (det.maskCoeffs.take 32).length = 32 := by
      rw [List.length_take]
      omega
    obtain ⟨g, gs, rfl⟩ : ∃ g gs, p = g :: gs := by
      cases p with
      | nil => simp at hp
      | cons g gs => exact ⟨g, gs, rfl⟩
    have he : einsumCHW (det.maskCoeffs.take 32) (g :: gs)
        = some ((List.zipWith scaleGrid (det.maskCoeffs.take 32) (g :: gs)).foldl
            addGrid (gridZeros g)) := by
      rw [einsumCHW.eq_def, if_pos (by rw [hlen, hp])]
    refine ⟨?_, by rw [he]; rfl⟩
    rw [decodeOneMask, if_neg (by omega), he]
    rfl
  · intro hlt
    by_cases h0 : det.maskCoeffs.length = 0
    · rw [decodeOneMask, if_pos h0]
    · have he : einsumCHW (det.maskCoeffs.take 32) p = none := by
        rw [einsumCHW.eq_def, if_neg]
        rw [List.length_take, hp]
        omega
      rw [decodeOneMask, if_neg h0, he]

/-- C4 witness: a detection with 32 coefficients gets its mask from the
first 32 coefficients, and the contraction succeeds. -/
theorem decodeOneMask_trunc_spec_witness :
    decodeOneMask (fun q => q) protosSmall fullCoeffDet
      = { fullCoeffDet with
          mask := Option.map (applyGrid fun q => q)
            (einsumCHW (fullCoeffDet.maskCoeffs.take 32) protosSmall) } ∧
    (einsumCHW (fullCoeffDet.maskCoeffs.take 32) protosSmall).isSome = true :=
  (decodeOneMask_trunc_spec (fun q => q) protosSmall fullCoeffDet
    (by simp [protosSmall])).1 (by simp [fullCoeffDet])

/-- C5: mapping a box forward through the letterbox transform
(`x640 = x * scale + padL`, the map used by `drawSegmentationMask`) and
feeding the resulting network-space row back through the decoder's
inverse map reproduces the original box exactly, for every positive
scale — exact over exact arithmetic. -/
theorem decodeRow_letterbox_roundtrip (scale padL padT x y w h s threshold : ℚ)
    (hs : 0 < scale) (hth : threshold ≤ s) :
    decodeRow threshold scale padL padT
      [letterboxFwd scale padL (x + w / 2), letterboxFwd scale padT (y + h / 2),
       w * scale, h * scale, s]
      = some { box := ⟨x, y, w, h⟩, score := s, cls := 0, maskCoeffs := [], mask := none } := by
  have hne : scale ≠ 0 := ne_of_gt hs
  have hmax : maxScoreOf [letterboxFwd scale padL (x + w / 2),
      letterboxFwd scale padT (y + h / 2), w * scale, h * scale, s] = some s := rfl
  simp only [decodeRow, hmax]
  rw [if_neg (not_lt.mpr hth)]
  simp [classScoresOf, numClasses, jsIndexOfQ, jsIndexOfQAux, Detection.mk.injEq,
    BoundingBox.mk.injEq, letterboxFwd]
  refine ⟨?_, ?_, ?_, ?_⟩ <;> (field_simp; try ring)

/-- C5 witness: the round trip on a concrete box `(3, 4, 10, 20)` with
scale `2` and pads `(5, 7)`. -/
theorem decodeRow_letterbox_roundtrip_witness :
    decodeRow (1/2) 2 5 7
      [letterboxFwd 2 5 (3 + 10 / 2), letterboxFwd 2 7 (4 + 20 / 2), 10 * 2, 20 * 2, 9/10]
      = some { box := ⟨3, 4, 10, 20⟩, score := 9/10, cls := 0, maskCoeffs := [], mask := none } :=
  decodeRow_letterbox_roundtrip 2 5 7 3 4 10 20 (9/10) (1/2) (by norm_num) (by norm_num)

/-- C6: the decoder rejects an anchor row exactly when its best class
score is strictly below the confidence threshold (`maxScore < threshold`
then `continue`); a row whose score equals the threshold is emitted. -/
theorem decodeRow_threshold_boundary (threshold scale padL padT s : ℚ)
    (row : List ℚ) (hmax : maxScoreOf row = some s) :
    (decodeRow threshold scale padL padT row).isSome = true ↔ threshold ≤ s := by
  simp only [decodeRow, hmax]
  by_cases h : s < threshold
  · rw [if_pos h]
    simp [not_le.mpr h]
  · rw [if_neg h]
    simp [not_lt.mp h]

/-- C6 witness: a row whose class score equals the threshold `1/2` is
emitted. -/
theorem decodeRow_threshold_boundary_witness :
    (decodeRow (1/2) 1 0 0 [0, 0, 1, 1, 1/2]).isSome = true :=
  (decodeRow_threshold_boundary (1/2) 1 0 0 (1/2) [0, 0, 1, 1, 1/2] rfl).mpr (by norm_num)

/-- C7 counterexample: a raw anchor row with negative width and height
entries that passes the confidence threshold is decoded into a
`Detection` whose box has negative extent — the decoder never clamps. -/
theorem decodeRow_negative_extent :
    (decodeRow (1/2) 1 0 0 [0, 0, -2, -2, 9/10]).map (fun d => (d.box.width, d.box.height))
      = some (-2, -2) ∧ ¬ (0 ≤ (-2 : ℚ)) := by
  constructor
  · have hmax : maxScoreOf [0, 0, -2, -2, 9/10] = some (9/10) := rfl
    simp only [decodeRow, hmax]
    rw [if_neg (by norm_num)]
    norm_num
  · norm_num

/-- C7 (amended): every `Detection` decoded from an anchor row whose raw
width and height entries are non-negative — which every box the network
emits satisfies — has `box.width ≥ 0` and `box.height ≥ 0`, for every
positive letterbox scale; for negative raw extents the decoder passes
the negative extent through (see the counterexample), so the invariant
holds only under these hypotheses. -/
theorem decodeRow_nonneg_extent (threshold scale padL padT : ℚ) (row : List ℚ)
    (d : Detection) (hs : 0 < scale)
    (hw : 0 ≤ row.getD 2 0) (hh : 0 ≤ row.getD 3 0)
    (hd : decodeRow threshold scale padL padT row = some d) :
    0 ≤ d.box.width ∧ 0 ≤ d.box.height := by
  rcases hmax : maxScoreOf row with _ | s
  · rw [decodeRow, hmax] at hd
    cases hd
  · simp only [decodeRow, hmax] at hd
    by_cases hlt : s < threshold
    · rw [if_pos hlt] at hd
      cases hd
    · rw [if_neg hlt] at hd
      obtain rfl := (Option.some.inj hd).symm
      have key : ∀ a b : ℚ, a + b / 2 - (a - b / 2) = b := by
        intro a b
        ring
      refine ⟨?_, ?_⟩ <;>
      · dsimp only
        rw [key]
        exact div_nonneg (by assumption) (le_of_lt hs)

/-- C7 witness: a well-formed row with positive raw extents decodes to a
box with non-negative extents. -/
theorem decodeRow_nonneg_extent_witness :
    0 ≤ (({ box := ⟨-1, -1, 2, 2⟩, score := 1, cls := 0, maskCoeffs := [], mask := none } : Detection)).box.width ∧
    0 ≤ (({ box := ⟨-1, -1, 2, 2⟩, score := 1, cls := 0, maskCoeffs := [], mask := none } : Detection)).box.height :=
  decodeRow_nonneg_extent (1/2) 1 0 0 [0, 0, 2, 2, 1] _ (by norm_num) (by norm_num)
    (by norm_num) (by
      have hmax : maxScoreOf [0, 0, 2, 2, 1] = some 1 := rfl
      simp only [decodeRow, hmax]
      rw [if_neg (by norm_num)]
      norm_num [jsIndexOfQ, jsIndexOfQAux, classScoresOf, numClasses])

/-- C8: a detection whose mask computation fails (its coefficient count
does not match the prototype channel count, so the channel contraction
throws and the `try`/`catch` absorbs it) does not abort the batch: the
failing detection is passed through unchanged — in particular without a
mask — while every detection before and after it is processed exactly as
it would be in a batch without the failure, and the mask decoder still
returns normally (no exception propagates). -/
theorem decodeMasks_isolates_failures (σ : ℚ → ℚ) (maskProtos : List (List (List ℚ)))
    (xs ys : List Detection) (bad : Detection)
    (h1 : 0 < bad.maskCoeffs.length)
    (h2 : (bad.maskCoeffs.take 32).length ≠ (normalizeProtos maskProtos).length) :
    decodeMasks σ maskProtos (xs ++ bad :: ys)
      = decodeMasksGo σ (normalizeProtos maskProtos) xs
          ++ bad :: decodeMasksGo σ (normalizeProtos maskProtos) ys := by
  have hbadeq : decodeOneMask σ (normalizeProtos maskProtos) bad = bad := by
    have he : einsumCHW (bad.maskCoeffs.take 32) (normalizeProtos maskProtos) = none := by
      rw [einsumCHW.eq_def, if_neg h2]
    rw [decodeOneMask, if_neg (by omega), he]
  rw [decodeMasks]
  induction xs with
  | nil => simp [decodeMasksGo, hbadeq]
  | cons a tl ih => simp [decodeMasksGo, ih]

/-- C8 witness: in the batch `[goodDet1, badDet, goodDet2]` against a
one-channel prototype, the middle detection's contraction fails and it
passes through unchanged while both neighbours are processed. -/
theorem decodeMasks_isolates_failures_witness :
    decodeMasks (fun q => q) protoTiny [goodDet1, badDet, goodDet2]
      = decodeMasksGo (fun q => q) (normalizeProtos protoTiny) [goodDet1]
          ++ badDet :: decodeMasksGo (fun q => q) (normalizeProtos protoTiny) [goodDet2] :=
  decodeMasks_isolates_failures (fun q => q) protoTiny [goodDet1] [goodDet2] badDet
    (by simp [badDet]) (by simp [badDet, normalizeProtos, shape3, protoTiny, transpose201])

/-- C9 counterexample: an anchor row whose class-score entry is `NaN`
is decoded (see C10) into a detection carrying `classId = -1`, and the
palette lookup index `-1 % 2` is `-1` in JavaScript — out of bounds for
a two-colour palette, so the lookup does not yield a palette entry. -/
theorem colorIndex_negative_classId_out_of_bounds :
    (decodeRowJs (JsNum.num (1/2)) (JsNum.num 1) (JsNum.num 0) (JsNum.num 0)
        [JsNum.num 100, JsNum.num 100, JsNum.num 10, JsNum.num 10, JsNum.nan]).map
          JsDetection.cls = some (-1) ∧
    colorIndex (-1) 2 = -1 ∧
    ¬ (0 ≤ colorIndex (-1) 2) := by
  refine ⟨rfl, rfl, by decide⟩

/-- C9 (amended): for every detection whose `classId` is non-negative —
every detection scored from non-`NaN` data, since the only other value
`indexOf` can produce is `-1` — and every non-empty palette, the lookup
index `classId % colorCount` is in bounds: `0 ≤ index < colorCount`.  A
detection carrying `classId = -1` (`NaN`-score row, C10) yields index
`-1`, which is out of bounds for any palette with at least two colours. -/
theorem colorIndex_in_bounds (cls : Int) (colorCount : Nat)
    (hc : 0 ≤ cls) (hn : 0 < colorCount) :
    0 ≤ colorIndex cls colorCount ∧ colorIndex cls colorCount < colorCount := by
  constructor
  · exact Int.tmod_nonneg _ hc
  · exact Int.tmod_lt_of_pos cls (by exact_mod_cast hn)

/-- C9 witness: index `5 % 3 = 2` is in bounds for a three-colour
palette. -/
theorem colorIndex_in_bounds_witness :
    0 ≤ colorIndex 5 3 ∧ colorIndex 5 3 < 3 :=
  colorIndex_in_bounds 5 3 (by decide) (by decide)

/-- C10: an anchor row whose class-score entry is `NaN` is not rejected
— `Math.max` yields `NaN`, the rejection test `NaN < threshold` is false
for every threshold — and the row is emitted as a detection with score
`NaN` and class `-1` (`indexOf` never finds `NaN`), whatever the
threshold, letterbox parameters and box entries. -/
theorem decodeRowJs_nan_row_emitted (threshold scale padL padT xc yc w h : JsNum) :
    (decodeRowJs threshold scale padL padT [xc, yc, w, h, JsNum.nan]).map
        (fun d => (d.score, d.cls)) = some (JsNum.nan, -1) := rfl
